import Mathlib

/-
Shallow embedding of the raxios HTTP client library (src/src/lib.rs,
raxios_options.rs, raxios_config.rs, utils.rs, network_error.rs,
raxios_response.rs, error.rs).

Strings are modelled as Lean String / List Char, byte buffers as List Nat,
HashMap<String, String> as an association list with replace-on-insert
semantics, and reqwest's StatusCode as Nat.  Fallible operations return
Except; a Rust arithmetic overflow (a panic under checked arithmetic) is
modelled as Option.none of the surrounding computation.
-/

namespace Raxios

/-- Embedding of `ContentType` (src/src/raxios_options.rs): the closed set of
wire formats the client can negotiate. -/
inductive ContentType
  | json
  | textXml
  | applicationXml
  | urlEncoded

deriving instance DecidableEq for ContentType

/-- Embedding of `impl Display for ContentType` (raxios_options.rs, fmt):
renders the variant to its canonical MIME string. -/
def ContentType.render : ContentType → String
  | ContentType.json => "application/json"
  | ContentType.textXml => "text/xml"
  | ContentType.applicationXml => "application/xml"
  | ContentType.urlEncoded => "application/x-www-form-urlencoded"

/-- Embedding of `impl FromStr for ContentType` (raxios_options.rs, from_str):
exact match against the four canonical MIME strings, anything else is an
error (modelled as `none`). -/
def ContentType.fromStr (s : String) : Option ContentType :=
  if s = ("application/json") then some ContentType.json
  else if s = ("text/xml") then some ContentType.textXml
  else if s = ("application/xml") then some ContentType.applicationXml
  else if s = ("application/x-www-form-urlencoded") then some ContentType.urlEncoded
  else none

/-- Embedding of `impl Default for ContentType` (raxios_options.rs): Json. -/
def ContentType.defaultContentType : ContentType := ContentType.json

/-- `RaxiosHeaders = HashMap<String, String>` modelled as an association
list; only lookup and replace-on-insert semantics of the HashMap are used. -/
abbrev Headers := List (String × String)

/-- Remove every binding of key `k` (helper for HashMap::insert's
replace semantics). -/
def hErase (k : String) : Headers → Headers
  | [] => []
  | p :: rest => if p.1 = k then hErase k rest else p :: hErase k rest

/-- `HashMap::insert`: the new binding replaces any previous binding of the
same key. -/
def hInsert (k v : String) (m : Headers) : Headers :=
  (k, v) :: hErase k m

/-- `HashMap::get`: first (and, by the insert discipline, only) binding of
the key. -/
def hLookup (m : Headers) (k : String) : Option String :=
  match m with
  | [] => none
  | p :: rest => if p.1 = k then some p.2 else hLookup rest k

/-- Embedding of `RaxiosConfig` (src/src/raxios_config.rs). -/
structure RaxiosConfig where
  timeout_ms : Option Nat
  headers : Option Headers
  accept : ContentType
  content_type : ContentType

/-- `RaxiosConfig`'s derived `Default`: all options `None`, both content
types `ContentType::default()` = Json. -/
def RaxiosConfig.defaultConfig : RaxiosConfig :=
  ⟨none, none, ContentType.json, ContentType.json⟩

/-- Embedding of `RaxiosOptions` (src/src/raxios_options.rs). -/
structure RaxiosOptions where
  headers : Option Headers
  accept : Option ContentType
  content_type : Option ContentType
  params : Option (List (List Char × List Char))
  deserialize_body : Bool

/-- Embedding of `impl Default for RaxiosOptions`: every override `None`
and `deserialize_body: true`. -/
def RaxiosOptions.defaultOptions : RaxiosOptions :=
  ⟨none, none, none, none, true⟩

/-- `options.unwrap_or_default()` as performed by every verb method
(lib.rs, e.g. line 335 in `post`). -/
def resolvedOptions (options : Option RaxiosOptions) : RaxiosOptions :=
  options.getD RaxiosOptions.defaultOptions

/-- Embedding of `Raxios::insert_default_headers` (lib.rs 93-105): inserts
the user-agent constant, then, when a config is present, the config's
content-type and accept strings, each with HashMap::insert (replacing any
existing binding of those keys).  The `USER_AGENT` constant
(`CARGO_PKG_NAME "/" CARGO_PKG_VERSION`) is a compile-time constant whose
version component is not part of src/, so it is passed as a parameter. -/
def insertDefaultHeaders (userAgent : String) (headers : Headers)
    (config : Option RaxiosConfig) : Headers :=
  let h1 := hInsert ("user-agent") userAgent headers
  match config with
  | none => h1
  | some cfg =>
    hInsert ("accept") cfg.accept.render
      (hInsert ("content-type") cfg.content_type.render h1)

/-- Modelled from the spec: the transport (reqwest, out of scope of src/)
applies the client's default headers only to header keys that the per-call
request has not already set, so a key set by the request resolves to the
request's value and any other key falls back to the client default. -/
def effectiveHeaderLookup (clientDefaults requestHeaders : Headers)
    (k : String) : Option String :=
  match hLookup requestHeaders k with
  | some v => some v
  | none => hLookup clientDefaults k

/-- Byte size of one character under UTF-8, as `str::len` counts it. -/
def charUtf8Size (c : Char) : Nat :=
  if c.val < 128 then 1
  else if c.val < 2048 then 2
  else if c.val < 65536 then 3
  else 4

/-- `str::len` of a string presented as its character list: total UTF-8
byte length. -/
def utf8Len : List Char → Nat
  | [] => 0
  | c :: rest => charUtf8Size c + utf8Len rest

/-- Embedding of the join step of `Raxios::build_url` (lib.rs 136-145):
`built_string = base;
 if built_string.chars().nth(built_string.len() - 1) != Some('/')
    && endpoint.chars().nth(0) != Some('/') { built_string += "/" }
 built_string += endpoint`.
`len()` is the byte length while `chars().nth` indexes characters, which
the embedding keeps faithfully.  `built_string.len() - 1` is a `usize`
subtraction: when the base is empty it overflows (a panic under Rust's
checked arithmetic), modelled as `none`. -/
def joinBaseEndpoint (base endpoint : List Char) : Option (List Char) :=
  if utf8Len base = 0 then none
  else
    some (base ++
      (if base.get? (utf8Len base - 1) ≠ some '/' ∧ endpoint.get? 0 ≠ some '/'
        then ['/'] else []) ++ endpoint)

/-- Embedding of the query-parameter loop of `Raxios::build_url`
(lib.rs 146-160): `key=value` pairs joined by `&`; the leading `?` is added
before the first pair.  HashMap iteration order is unspecified, so the
parameters arrive as the list in iteration order. -/
def renderParamPairs : List (List Char × List Char) → List Char
  | [] => []
  | (k, v) :: [] => k ++ '=' :: v
  | (k, v) :: rest => k ++ '=' :: v ++ '&' :: renderParamPairs rest

/-- The full string assembled by `Raxios::build_url` before URL parsing
(lib.rs 135-160): join step, then the query string when options with
parameters are present.  `none` models the panic of the join step. -/
def buildUrlString (base endpoint : List Char)
    (params : Option (List (List Char × List Char))) : Option (List Char) :=
  match joinBaseEndpoint base endpoint with
  | none => none
  | some s =>
    match params with
    | none => some s
    | some ps => some (s ++ (if ps = [] then [] else '?' :: renderParamPairs ps))

/-- Embedding of `NetworkError` (src/src/network_error.rs): status code,
optional remote peer address, optional eagerly-read raw body bytes. -/
structure NetworkError where
  status_code : Nat
  origin_address : Option String
  raw_body : Option (List Nat)

deriving instance DecidableEq for NetworkError

/-- A transport response as the classifier sees it: status, optional remote
peer address, headers (already in map form; the header-value string
conversion of `reqwest_headers_to_map` lives in the transport's types and
is modelled as already performed), and the optional body bytes that
`response.bytes().await.ok()` yields. -/
structure RawResponse where
  status : Nat
  remoteAddr : Option String
  respHeaders : Headers
  bodyBytes : Option (List Nat)

/-- Embedding of `NetworkError::new` (network_error.rs 65-73). -/
def NetworkError.ofResponse (r : RawResponse) : NetworkError :=
  ⟨r.status, r.remoteAddr, r.bodyBytes⟩

/-- Embedding of the error union `RaxiosError` (src/src/error.rs).  The
source constructs `RaxiosError::DeserializationError` with no payload
(lib.rs 264), so the variant carries none here. -/
inductive RaxiosError
  | unknown
  | headerParseError (key value : String)
  | invalidUrl (s : List Char)
  | unableToSendRequest
  | networkError (e : NetworkError)
  | serializationError
  | deserializationError

deriving instance DecidableEq for RaxiosError

/-- Embedding of `RaxiosResponse<T>` (src/src/raxios_response.rs). -/
structure RaxiosResponse (T : Type) where
  body : Option T
  raw_body : Option (List Nat)
  status : Nat
  response_headers : Headers
  remote_address : Option String

/-- Embedding of `Raxios::check_response_and_return_err` (lib.rs 236-241):
`reqwest::StatusCode::is_client_error` is 400..=499 and `is_server_error`
is 500..=599. -/
def checkResponseAndReturnErr (r : RawResponse) :
    Except NetworkError RawResponse :=
  if (400 ≤ r.status ∧ r.status ≤ 499) ∨ (500 ≤ r.status ∧ r.status ≤ 599)
  then Except.error (NetworkError.ofResponse r)
  else Except.ok r

/-- Embedding of `Raxios::response_to_raxios_response` (lib.rs 243-277):
classify, capture headers/address/status, read the bytes, then decode the
body only when bytes are present and `deserialize_body` is set; a decode
failure is `DeserializationError`.  JSON decoding into `T` (serde, external)
is the parameter `dec`. -/
def responseToRaxiosResponse (T : Type) (dec : List Nat → Option T)
    (r : RawResponse) (deserialize_body : Bool) :
    Except RaxiosError (RaxiosResponse T) :=
  match checkResponseAndReturnErr r with
  | Except.error e => Except.error (RaxiosError.networkError e)
  | Except.ok resp =>
    let raw := resp.bodyBytes
    match raw, deserialize_body with
    | some rb, true =>
      match dec rb with
      | none => Except.error RaxiosError.deserializationError
      | some t =>
        Except.ok ⟨some t, raw, resp.status, resp.respHeaders, resp.remoteAddr⟩
    | _, _ =>
      Except.ok ⟨none, raw, resp.status, resp.respHeaders, resp.remoteAddr⟩

/-- Embedding of the content-type resolution of `Raxios::make_body`
(lib.rs 177-191): start from `ContentType::default()` (Json), use the
per-call override when present, else the client config's content type. -/
def resolveContentType (config : Option RaxiosConfig)
    (options : Option RaxiosOptions) : ContentType :=
  match options with
  | some opts =>
    match opts.content_type with
    | some c => c
    | none =>
      match config with
      | some cfg => cfg.content_type
      | none => ContentType.json
  | none =>
    match config with
    | some cfg => cfg.content_type
    | none => ContentType.json

/-- Embedding of `map_to_reqwest_headers` (src/src/utils.rs 59-71): each
entry's key must parse as a header name and its value as a header value
(both validity checks live in the external http crate and are the
parameters `validName`/`validValue`); the first failing entry aborts the
whole conversion with `HeaderParseError(key, value)`. -/
def mapToReqwestHeaders (validName validValue : String → Bool) :
    Headers → Except RaxiosError Headers
  | [] => Except.ok []
  | (k, v) :: rest =>
    if validName k = false then Except.error (RaxiosError.headerParseError k v)
    else if validValue v = false then
      Except.error (RaxiosError.headerParseError k v)
    else
      match mapToReqwestHeaders validName validValue rest with
      | Except.error e => Except.error e
      | Except.ok hs => Except.ok ((k, v) :: hs)

/-- The response leg of a verb method (lib.rs 325-349 `post`, and likewise
get/put/patch/delete): the options default in, and the response is handed
to `response_to_raxios_response` with the resolved `deserialize_body`
flag. -/
def verbResponsePipeline (T : Type) (dec : List Nat → Option T)
    (options : Option RaxiosOptions) (r : RawResponse) :
    Except RaxiosError (RaxiosResponse T) :=
  responseToRaxiosResponse T dec r (resolvedOptions options).deserialize_body

/- ------------------------------------------------------------------ -/
/- Helper lemmas                                                       -/
/- ------------------------------------------------------------------ -/

theorem utf8Len_eq_length (s : List Char) (h : ∀ c ∈ s, charUtf8Size c = 1) :
    utf8Len s = s.length := by
  induction s with
  | nil => rfl
  | cons a t ih =>
    have ha := h a (by simp)
    simp only [utf8Len, ha, List.length_cons, ih (fun c hc => h c (by simp [hc]))]
    omega

theorem get?_last_eq (s : List Char) : s.get? (s.length - 1) = s.getLast? := by
  rw [List.get?_eq_getElem?, List.getLast?_eq_getElem?]

theorem get?_zero_eq (s : List Char) : s.get? 0 = s.head? := by
  cases s <;> rfl

theorem eq_cons_of_head?_eq {c : Char} {l : List Char} (h : l.head? = some c) :
    l = c :: l.tail := by
  cases l with
  | nil => simp at h
  | cons a t =>
    simp only [List.head?_cons, Option.some.injEq] at h
    simp [h]

theorem eq_dropLast_append_of_getLast?_eq {c : Char} {l : List Char}
    (h : l.getLast? = some c) : l = l.dropLast ++ [c] := by
  have hne : l ≠ [] := by
    cases l
    · simp at h
    · simp
  have h2 := List.dropLast_append_getLast hne
  rw [List.getLast?_eq_getLast l hne, Option.some.injEq] at h
  rw [h] at h2
  exact h2.symm

theorem hLookup_hErase_ne (k k' : String) (m : Headers) (h : k' ≠ k) :
    hLookup (hErase k m) k' = hLookup m k' := by
  induction m with
  | nil => rfl
  | cons p rest ih =>
    by_cases hpk : p.1 = k
    · have hpk' : p.1 ≠ k' := by
        rw [hpk]
        exact fun e => h e.symm
      simp [hErase, hpk, hLookup, hpk', ih, Ne.symm h]
    · by_cases hpk' : p.1 = k'
      · simp [hErase, hpk, hLookup, hpk', h]
      · simp [hErase, hpk, hLookup, hpk', ih]

theorem hLookup_hInsert_self (k v : String) (m : Headers) :
    hLookup (hInsert k v m) k = some v := by
  simp [hInsert, hLookup]

theorem hLookup_hInsert_ne (k v k' : String) (m : Headers) (h : k' ≠ k) :
    hLookup (hInsert k v m) k' = hLookup m k' := by
  have hk : k ≠ k' := fun e => h e.symm
  simp [hInsert, hLookup, hk]
  exact hLookup_hErase_ne k k' m h

/- ------------------------------------------------------------------ -/
/- Claim theorems                                                      -/
/- ------------------------------------------------------------------ -/

/-- C2, counterexample: the claim says a header key present both in the
client's persistent headers and among the component-injected defaults keeps
the client's persistent value.  But insert_default_headers runs
HashMap::insert for the injected keys after the persistent headers are in
the map, so the injected value replaces the persistent one: a client whose
persistent headers bind content-type to "text/xml" under the default config
(content_type Json) ends up with content-type bound to "application/json". -/
theorem c2_counterexample :
    hLookup ([(("content-type"), ("text/xml"))]) ("content-type")
      = some ("text/xml") ∧
    hLookup
      (insertDefaultHeaders ("raxios/0.1.0")
        ([(("content-type"), ("text/xml"))]) (some RaxiosConfig.defaultConfig))
      ("content-type") = some ("application/json") := by
  constructor
  · rfl
  · rfl

/-- C2 (amended): per-call header overrides still beat the client's layer
(the transport fills client defaults only for keys the request has not set),
but within the client's layer the component-injected defaults (user-agent,
content-type, accept) are inserted last and replace the client's persistent
values for those three keys; the client's persistent headers win only for
every other key. -/
theorem c2_header_precedence :
    (∀ (cd rh : Headers) (k v : String), hLookup rh k = some v →
      effectiveHeaderLookup cd rh k = some v) ∧
    (∀ (ua : String) (h : Headers) (cfg : RaxiosConfig),
      hLookup (insertDefaultHeaders ua h (some cfg)) ("content-type")
        = some cfg.content_type.render ∧
      hLookup (insertDefaultHeaders ua h (some cfg)) ("accept")
        = some cfg.accept.render ∧
      hLookup (insertDefaultHeaders ua h (some cfg)) ("user-agent")
        = some ua) ∧
    (∀ (ua : String) (h : Headers) (cfg : Option RaxiosConfig) (k : String),
      k ≠ ("user-agent") → k ≠ ("content-type") → k ≠ ("accept") →
      hLookup (insertDefaultHeaders ua h cfg) k = hLookup h k) := by
  refine ⟨?_, ?_, ?_⟩
  · intro cd rh k v hk
    simp [effectiveHeaderLookup, hk]
  · intro ua h cfg
    refine ⟨?_, ?_, ?_⟩
    · rw [show insertDefaultHeaders ua h (some cfg)
          = hInsert ("accept") cfg.accept.render
              (hInsert ("content-type") cfg.content_type.render
                (hInsert ("user-agent") ua h)) from rfl]
      rw [hLookup_hInsert_ne _ _ _ _ (by decide), hLookup_hInsert_self]
    · rw [show insertDefaultHeaders ua h (some cfg)
          = hInsert ("accept") cfg.accept.render
              (hInsert ("content-type") cfg.content_type.render
                (hInsert ("user-agent") ua h)) from rfl]
      rw [hLookup_hInsert_self]
    · rw [show insertDefaultHeaders ua h (some cfg)
          = hInsert ("accept") cfg.accept.render
              (hInsert ("content-type") cfg.content_type.render
                (hInsert ("user-agent") ua h)) from rfl]
      rw [hLookup_hInsert_ne _ _ _ _ (by decide),
        hLookup_hInsert_ne _ _ _ _ (by decide), hLookup_hInsert_self]
  · intro ua h cfg k hua hct hac
    cases cfg with
    | none =>
      rw [show insertDefaultHeaders ua h none
          = hInsert ("user-agent") ua h from rfl]
      rw [hLookup_hInsert_ne _ _ _ _ hua]
    | some cfg =>
      rw [show insertDefaultHeaders ua h (some cfg)
          = hInsert ("accept") cfg.accept.render
              (hInsert ("content-type") cfg.content_type.render
                (hInsert ("user-agent") ua h)) from rfl]
      rw [hLookup_hInsert_ne _ _ _ _ hac, hLookup_hInsert_ne _ _ _ _ hct,
        hLookup_hInsert_ne _ _ _ _ hua]

/-- C2, witness: the amended precedence at concrete inputs — a per-call
request header wins over the client layer, the injected accept default is
present, and a persistent header under a non-injected key survives. -/
theorem c2_header_precedence_witness :
    effectiveHeaderLookup ([]) ([(("x-a"), ("v1"))]) ("x-a") = some ("v1") ∧
    hLookup
      (insertDefaultHeaders ("ua1") ([]) (some RaxiosConfig.defaultConfig))
      ("accept") = some (ContentType.json.render) ∧
    hLookup
      (insertDefaultHeaders ("ua1") ([(("x-b"), ("v2"))])
        (some RaxiosConfig.defaultConfig)) ("x-b") = some ("v2") := by
  refine ⟨c2_header_precedence.1 ([]) ([(("x-a"), ("v1"))]) ("x-a") ("v1") rfl,
    ?_, ?_⟩
  · exact (c2_header_precedence.2.1 ("ua1") ([]) RaxiosConfig.defaultConfig).2.1
  · exact c2_header_precedence.2.2 ("ua1") ([(("x-b"), ("v2"))])
      (some RaxiosConfig.defaultConfig) ("x-b") (by decide) (by decide)
      (by decide)

/-- C1, counterexample: the claim says the URL assembled by build_url never
contains a double slash at the join point, including when the base ends with
a slash and the endpooint starts with one.  But with base "http://a/" and
endpoint "/x" the join step inserts nothing and keeps both slashes, so the
assembled string is "http://a//x", which carries two slashes at the join
point. -/
theorem c1_counterexample :
    joinBaseEndpoint (("http://a/").toList) (("/x").toList)
        = some (("http://a//x").toList) ∧
    ∃ l r, (("http://a//x").toList) = l ++ '/' :: '/' :: r := by
  constructor
  · rfl
  · exact ⟨("http://a").toList, ("x").toList, rfl⟩

/-- C1 (amended): for every nonempty all-ASCII base and every endpoint, the
join step of build_url inserts a single slash exactly when the base does not
end with a slash and the endpoint does not start with one; the join point
then carries exactly one slash in every case except when the base ends with
a slash AND the endpoint starts with one, where both slashes are kept and
the join point carries a double slash. -/
theorem c1_join_slash_characterization (base endpoint : List Char)
    (hne : base ≠ []) (hascii : ∀ c ∈ base, charUtf8Size c = 1) :
    joinBaseEndpoint base endpoint = some (
      (if base.getLast? = some '/' then base.dropLast else base) ++
      List.replicate
        (if base.getLast? = some '/' ∧ endpoint.head? = some '/' then 2 else 1)
        '/' ++
      (if endpoint.head? = some '/' then endpoint.tail else endpoint)) := by
  have hlen : utf8Len base = base.length := utf8Len_eq_length base hascii
  have hpos : utf8Len base ≠ 0 := by
    rw [hlen]
    simpa using hne
  unfold joinBaseEndpoint
  rw [if_neg hpos, hlen, get?_last_eq, get?_zero_eq]
  by_cases hb : base.getLast? = some '/' <;>
    by_cases he : endpoint.head? = some '/'
  · rw [if_neg (by simp [hb]), if_pos hb, if_pos ⟨hb, he⟩, if_pos he]
    have hbase := eq_dropLast_append_of_getLast?_eq hb
    have hend := eq_cons_of_head?_eq he
    rw [Option.some.injEq]
    conv_lhs => rw [hbase, hend]
    simp
  · rw [if_neg (by simp [hb]), if_pos hb, if_neg (by simp [he]), if_neg he]
    have hbase := eq_dropLast_append_of_getLast?_eq hb
    rw [Option.some.injEq]
    conv_lhs => rw [hbase]
    simp
  · rw [if_neg (by simp [he]), if_neg hb, if_neg (by simp [hb]), if_pos he]
    have hend := eq_cons_of_head?_eq he
    rw [Option.some.injEq]
    conv_lhs => rw [hend]
    simp
  · rw [if_pos ⟨hb, he⟩, if_neg hb, if_neg (by simp [hb]), if_neg he]
    simp

/-- C1, witness for the amended theorem at base "a/" and endpoint "/x". -/
theorem c1_join_slash_characterization_witness :
    joinBaseEndpoint (("a/").toList) (("/x").toList) = some (
      (if (("a/").toList).getLast? = some '/'
        then (("a/").toList).dropLast else ("a/").toList) ++
      List.replicate
        (if (("a/").toList).getLast? = some '/' ∧
            (("/x").toList).head? = some '/' then 2 else 1) '/' ++
      (if (("/x").toList).head? = some '/'
        then (("/x").toList).tail else ("/x").toList)) :=
  c1_join_slash_characterization (("a/").toList) (("/x").toList)
    (by decide) (by decide)

theorem check_ok_of_success (r : RawResponse) (h1 : 200 ≤ r.status)
    (h2 : r.status ≤ 399) : checkResponseAndReturnErr r = Except.ok r := by
  unfold checkResponseAndReturnErr
  rw [if_neg (by omega)]

/-- C3: a response with status in [400,599] is classified as a NetworkError
carrying the response's own status, remote peer address and raw body bytes,
while a response with status in [200,399] passes through classification
unchanged. -/
theorem c3_status_classification (r : RawResponse) :
    (400 ≤ r.status → r.status ≤ 599 →
      checkResponseAndReturnErr r
        = Except.error ⟨r.status, r.remoteAddr, r.bodyBytes⟩) ∧
    (200 ≤ r.status → r.status ≤ 399 →
      checkResponseAndReturnErr r = Except.ok r) := by
  constructor
  · intro h1 h2
    unfold checkResponseAndReturnErr
    rw [if_pos (by omega)]
    rfl
  · intro h1 h2
    exact check_ok_of_success r h1 h2

/-- C3, witness at a concrete 404 response. -/
theorem c3_status_classification_witness :
    checkResponseAndReturnErr ⟨404, none, [], some ([1, 2])⟩
      = Except.error ⟨404, none, some ([1, 2])⟩ :=
  (c3_status_classification ⟨404, none, [], some ([1, 2])⟩).1
    (by decide) (by decide)

/-- C4: with deserialization requested, a successful response whose raw
bytes decode yields a populated body; raw bytes that fail to decode yield
DeserializationError; absent raw bytes yield success with body = none and
no error. -/
theorem c4_deserialization_requested (T : Type) (dec : List Nat → Option T)
    (r : RawResponse) (h1 : 200 ≤ r.status) (h2 : r.status ≤ 399) :
    (∀ rb t, r.bodyBytes = some rb → dec rb = some t →
      responseToRaxiosResponse T dec r true
        = Except.ok ⟨some t, some rb, r.status, r.respHeaders, r.remoteAddr⟩) ∧
    (∀ rb, r.bodyBytes = some rb → dec rb = none →
      responseToRaxiosResponse T dec r true
        = Except.error RaxiosError.deserializationError) ∧
    (r.bodyBytes = none →
      responseToRaxiosResponse T dec r true
        = Except.ok ⟨none, none, r.status, r.respHeaders, r.remoteAddr⟩) := by
  have hok := check_ok_of_success r h1 h2
  refine ⟨?_, ?_, ?_⟩
  · intro rb t hrb hdec
    simp [responseToRaxiosResponse, hok, hrb, hdec]
  · intro rb hrb hdec
    simp [responseToRaxiosResponse, hok, hrb, hdec]
  · intro hrb
    simp [responseToRaxiosResponse, hok, hrb]

/-- C4, witness at a concrete 200 response whose single-byte body decodes
to the value 7. -/
theorem c4_deserialization_requested_witness :
    responseToRaxiosResponse Nat
        (fun rb => if rb = [1] then some 7 else none)
        ⟨200, none, [], some ([1])⟩ true
      = Except.ok ⟨some 7, some ([1]), 200, [], none⟩ :=
  (c4_deserialization_requested Nat
      (fun rb => if rb = [1] then some 7 else none)
      ⟨200, none, [], some ([1])⟩ (by decide) (by decide)).1
    ([1]) 7 rfl (by decide)

/-- C5: the content-type used for body encoding resolves by a total
two-level fallback: the per-call override when present, else the client
config's content type, else ContentType::Json — always one concrete
variant. -/
theorem c5_content_type_resolution (config : Option RaxiosConfig)
    (options : Option RaxiosOptions) :
    (∀ opts c, options = some opts → opts.content_type = some c →
      resolveContentType config options = c) ∧
    (∀ opts cfg, options = some opts → opts.content_type = none →
      config = some cfg →
      resolveContentType config options = cfg.content_type) ∧
    (∀ cfg, options = none → config = some cfg →
      resolveContentType config options = cfg.content_type) ∧
    ((options = none ∨ (∃ opts, options = some opts ∧
        opts.content_type = none)) → config = none →
      resolveContentType config options = ContentType.json) := by
  refine ⟨?_, ?_, ?_, ?_⟩
  · intro opts c hopt hc
    subst hopt
    simp [resolveContentType, hc]
  · intro opts cfg hopt hc hcfg
    subst hopt
    subst hcfg
    simp [resolveContentType, hc]
  · intro cfg hopt hcfg
    subst hopt
    subst hcfg
    simp [resolveContentType]
  · intro hopt hcfg
    subst hcfg
    rcases hopt with h | ⟨opts, hopt, hc⟩
    · subst h
      simp [resolveContentType]
    · subst hopt
      simp [resolveContentType, hc]

/-- C5, witness: a per-call TextXml override wins over a Json client
config. -/
theorem c5_content_type_resolution_witness :
    resolveContentType (some RaxiosConfig.defaultConfig)
        (some ⟨none, none, some ContentType.textXml, none, true⟩)
      = ContentType.textXml :=
  (c5_content_type_resolution (some RaxiosConfig.defaultConfig)
      (some ⟨none, none, some ContentType.textXml, none, true⟩)).1
    ⟨none, none, some ContentType.textXml, none, true⟩ ContentType.textXml
    rfl rfl

/-- C6: for each of the four ContentType variants, parsing the rendered
canonical MIME string returns the same variant. -/
theorem c6_content_type_roundtrip (v : ContentType) :
    ContentType.fromStr v.render = some v := by
  cases v <;> rfl

/-- C7: when deserialization is disabled, decoding is skipped even for raw
bytes that would decode successfully: the body is none and the raw bytes
are retained. -/
theorem c7_deserialize_optout (T : Type) (dec : List Nat → Option T)
    (r : RawResponse) (rb : List Nat) (t : T) (h1 : 200 ≤ r.status)
    (h2 : r.status ≤ 399) (hrb : r.bodyBytes = some rb)
    (_hvalid : dec rb = some t) :
    responseToRaxiosResponse T dec r false
      = Except.ok ⟨none, some rb, r.status, r.respHeaders, r.remoteAddr⟩ := by
  have hok := check_ok_of_success r h1 h2
  simp [responseToRaxiosResponse, hok, hrb]

/-- C7, witness at a concrete 200 response with decodable bytes and
deserialization disabled. -/
theorem c7_deserialize_optout_witness :
    responseToRaxiosResponse Nat
        (fun rb => if rb = [1] then some 7 else none)
        ⟨200, none, [], some ([1])⟩ false
      = Except.ok ⟨none, some ([1]), 200, [], none⟩ :=
  c7_deserialize_optout Nat (fun rb => if rb = [1] then some 7 else none)
    ⟨200, none, [], some ([1])⟩ ([1]) 7 (by decide) (by decide) rfl
    (by decide)

/-- C9: the claim asserts build_url is total even for the empty base string
(as produced by Raxios::default()), but there the source computes
`built_string.len() - 1` on a length-0 string: a usize subtraction that
overflows, which panics under Rust's checked arithmetic (debug/test
builds).  The checked embedding therefore yields `none` (models the panic)
on the empty base, while every nonempty base evaluates to a result, as the
second conjunct illustrates. -/
theorem c9_empty_base_underflow :
    buildUrlString (("").toList) (("test").toList) none = none ∧
    buildUrlString (("x").toList) (("test").toList) none
      = some (("x/test").toList) := by
  constructor
  · rfl
  · rfl

/-- C8: converting a string-keyed header map to transport headers either
succeeds for the whole map, or aborts with HeaderParseError carrying the
key and value of an offending entry (one whose key fails header-name
validation or whose value fails header-value validation); no partial map is
returned on failure, and some failing entry is always reported when one
exists. -/
theorem c8_header_conversion (vn vv : String → Bool) (m : Headers) :
    ((∀ p ∈ m, vn p.1 = true ∧ vv p.2 = true) →
      mapToReqwestHeaders vn vv m = Except.ok m) ∧
    (∀ k v, mapToReqwestHeaders vn vv m
        = Except.error (RaxiosError.headerParseError k v) →
      (k, v) ∈ m ∧ (vn k = false ∨ vv v = false)) ∧
    ((∃ p ∈ m, vn p.1 = false ∨ vv p.2 = false) →
      ∃ k v, mapToReqwestHeaders vn vv m
        = Except.error (RaxiosError.headerParseError k v)) := by
  induction m with
  | nil =>
    refine ⟨fun _ => rfl, ?_, ?_⟩
    · intro k v h
      simp [mapToReqwestHeaders] at h
    · intro h
      simp at h
  | cons p rest ih =>
    obtain ⟨k0, v0⟩ := p
    refine ⟨?_, ?_, ?_⟩
    · intro hall
      have hk := (hall (k0, v0) (by simp)).1
      have hv := (hall (k0, v0) (by simp)).2
      have hrest := ih.1 (fun q hq => hall q (by simp [hq]))
      simp [mapToReqwestHeaders, hk, hv, hrest]
    · intro k v herr
      cases hvn : vn k0 with
      | false =>
        simp [mapToReqwestHeaders, hvn] at herr
        obtain ⟨hk, hv⟩ := herr
        subst hk
        subst hv
        exact ⟨by simp, Or.inl hvn⟩
      | true =>
        cases hvv : vv v0 with
        | false =>
          simp [mapToReqwestHeaders, hvn, hvv] at herr
          obtain ⟨hk, hv⟩ := herr
          subst hk
          subst hv
          exact ⟨by simp, Or.inr hvv⟩
        | true =>
          cases hrec : mapToReqwestHeaders vn vv rest with
          | error e =>
            simp [mapToReqwestHeaders, hvn, hvv, hrec] at herr
            subst herr
            have hm := ih.2.1 k v hrec
            exact ⟨by simp [hm.1], hm.2⟩
          | ok hs =>
            simp [mapToReqwestHeaders, hvn, hvv, hrec] at herr
    · intro hbad
      cases hvn : vn k0 with
      | false => exact ⟨k0, v0, by simp [mapToReqwestHeaders, hvn]⟩
      | true =>
        cases hvv : vv v0 with
        | false => exact ⟨k0, v0, by simp [mapToReqwestHeaders, hvn, hvv]⟩
        | true =>
          obtain ⟨q, hq, hqbad⟩ := hbad
          rcases List.mem_cons.mp hq with hq0 | hqrest
          · subst hq0
            simp [hvn, hvv] at hqbad
          · obtain ⟨k, v, hrec⟩ := ih.2.2 ⟨q, hqrest, hqbad⟩
            exact ⟨k, v, by simp [mapToReqwestHeaders, hvn, hvv, hrec]⟩

/-- C8, witness: a one-entry map under validators that accept everything
converts whole. -/
theorem c8_header_conversion_witness :
    mapToReqwestHeaders (fun _s => true) (fun _s => true) ([(("a"), ("b"))])
      = Except.ok ([(("a"), ("b"))]) :=
  (c8_header_conversion (fun _s => true) (fun _s => true)
      ([(("a"), ("b"))])).1 (fun _p _hp => ⟨rfl, rfl⟩)

/-- C10: a verb method called with no options uses the default RaxiosOptions,
whose deserialize_body flag is true and whose header, parameter, accept and
content-type overrides are all absent; consequently the response pipeline
runs with deserialization on, so a decode is attempted (and its failure
surfaces) by default. -/
theorem c10_default_options :
    resolvedOptions none = RaxiosOptions.defaultOptions ∧
    RaxiosOptions.defaultOptions.deserialize_body = true ∧
    RaxiosOptions.defaultOptions.headers = none ∧
    RaxiosOptions.defaultOptions.params = none ∧
    RaxiosOptions.defaultOptions.accept = none ∧
    RaxiosOptions.defaultOptions.content_type = none ∧
    (∀ (T : Type) (dec : List Nat → Option T) (r : RawResponse),
      verbResponsePipeline T dec none r = responseToRaxiosResponse T dec r true) ∧
    (∀ (T : Type) (dec : List Nat → Option T) (r : RawResponse)
        (rb : List Nat), 200 ≤ r.status → r.status ≤ 399 →
      r.bodyBytes = some rb → dec rb = none →
      verbResponsePipeline T dec none r
        = Except.error RaxiosError.deserializationError) := by
  refine ⟨rfl, rfl, rfl, rfl, rfl, rfl, fun T dec r => rfl, ?_⟩
  intro T dec r rb h1 h2 hrb hdec
  have hok := check_ok_of_success r h1 h2
  simp [verbResponsePipeline, resolvedOptions, RaxiosOptions.defaultOptions,
    responseToRaxiosResponse, hok, hrb, hdec]

/-- C10, witness: with no options, a decode failure on a 200 response
surfaces as DeserializationError — deserialization was attempted by
default. -/
theorem c10_default_options_witness :
    verbResponsePipeline Nat (fun _rb => none) none ⟨200, none, [], some ([1])⟩
      = Except.error RaxiosError.deserializationError :=
  c10_default_options.2.2.2.2.2.2.2 Nat (fun _rb => none)
    ⟨200, none, [], some ([1])⟩ ([1]) (by decide) (by decide) rfl rfl

end Raxios
